import Mathlib

/-!
Verification of the port reservation / allocation subsystem and the
deployment pipeline of the manuscript CLI.

The Go source is shallowly embedded: pure logic is translated directly;
calls to external processes (lsof, docker, the step runner's side effects)
are passed in as explicit outcome parameters; Go's in-place mutation of the
manuscript is explicit state passing (the functions return the updated
manuscript together with an optional error string); Go's `map[int]V` is an
association list inserted into only at absent keys, and `map[int]bool`
membership is a boolean function.
-/

namespace ManuscriptCore

/-- PortReservation from the source: (port, owning manuscript name, role).
The role strings used by the code are "Flink", "GraphQL", "DB". -/
structure PortReservation where
  Port : Int
  ManuscriptName : String
  PortType : String
  deriving Repr, DecidableEq

/-- The fields of the job descriptor that the port subsystem reads and
writes: the name and the three optional (zero = unset) ports. -/
structure Manuscript where
  Name : String
  Port : Int
  GraphQLPort : Int
  DbPort : Int
  deriving Repr, DecidableEq

/-- The persisted configuration: the list of previously deployed jobs. -/
structure Config where
  Manuscripts : List Manuscript
  deriving Repr, DecidableEq

/-- The reservation map `map[int]PortReservation`, as an association list;
the code only ever inserts at keys it has just checked to be absent. -/
abbrev ResMap := List (Int × PortReservation)

/-- Go map read `reserved[port]`: first (and, by construction, only)
binding of the key. -/
def lookupRes : ResMap → Int → Option PortReservation
  | [], _ => none
  | (q, r) :: rest, p => if p = q then some r else lookupRes rest p

/-- One of the three identical blocks of FindReservedPorts: skip a zero
port, error if the port is already bound, otherwise insert it. -/
def checkPort (reserved : ResMap) (port : Int) (name portType : String) :
    Except String ResMap :=
  if port ≠ 0 then
    match lookupRes reserved port with
    | some existing =>
        .error ("port conflict detected: " ++ toString port ++
          " is reserved by both " ++ existing.ManuscriptName ++ " and " ++
          name ++ " for " ++ existing.PortType)
    | none => .ok (reserved ++ [(port, ⟨port, name, portType⟩)])
  else
    .ok reserved

/-- The loop body of FindReservedPorts: a job's three port fields, in the
fixed order Flink, GraphQL, DB. -/
def processManuscript (reserved : ResMap) (ms : Manuscript) :
    Except String ResMap :=
  match checkPort reserved ms.Port ms.Name "Flink" with
  | .error e => .error e
  | .ok r1 =>
    match checkPort r1 ms.GraphQLPort ms.Name "GraphQL" with
    | .error e => .error e
    | .ok r2 => checkPort r2 ms.DbPort ms.Name "DB"

/-- The `for _, ms := range config.Manuscripts` loop of FindReservedPorts. -/
def scanManuscripts : ResMap → List Manuscript → Except String ResMap
  | reserved, [] => .ok reserved
  | reserved, ms :: rest =>
    match processManuscript reserved ms with
    | .error e => .error e
    | .ok r => scanManuscripts r rest

/-- FindReservedPorts from the source: a nil config yields the empty map;
otherwise scan the job list, building the port → reservation map. -/
def FindReservedPorts : Option Config → Except String ResMap
  | none => .ok []
  | some config => scanManuscripts [] config.Manuscripts

/-- One of the three identical blocks of ValidatePortAssignments: a
non-zero candidate port already reserved by a *different* manuscript name
is an error. -/
def checkAssignment (reserved : ResMap) (port : Int) (name : String) :
    Except String Unit :=
  if port ≠ 0 then
    match lookupRes reserved port with
    | some reservation =>
        if reservation.ManuscriptName ≠ name then
          .error ("port " ++ toString port ++
            " is already reserved by manuscript " ++
            reservation.ManuscriptName ++ " for " ++ reservation.PortType)
        else
          .ok ()
    | none => .ok ()
  else
    .ok ()

/-- ValidatePortAssignments from the source: build the reservation index
(wrapping its error), then check the candidate's three ports in order. -/
def ValidatePortAssignments (ms : Manuscript) (config : Option Config) :
    Except String Unit :=
  match FindReservedPorts config with
  | .error e => .error ("failed to check reserved ports: " ++ e)
  | .ok reserved =>
    match checkAssignment reserved ms.Port ms.Name with
    | .error e => .error e
    | .ok _ =>
      match checkAssignment reserved ms.GraphQLPort ms.Name with
      | .error e => .error e
      | .ok _ => checkAssignment reserved ms.DbPort ms.Name

/-- The loop of FindAvailablePort: try `fuel` consecutive ports starting
at `port`, returning the first one not marked unavailable. -/
def findLoop (unavail : Int → Bool) : Nat → Int → Option Int
  | 0, _ => none
  | n + 1, port =>
    if unavail port then findLoop unavail n (port + 1) else some port

/-- FindAvailablePort from the source: linear scan of the inclusive range
[startPort, endPort]; exhaustion is an error naming the range. -/
def FindAvailablePort (startPort endPort : Int)
    (unavailablePorts : Int → Bool) : Except String Int :=
  match findLoop unavailablePorts ((endPort + 1 - startPort).toNat)
      startPort with
  | some p => .ok p
  | none =>
    .error ("no available ports in the range " ++ toString startPort ++
      "-" ++ toString endPort)

/-- Insertion of scraped ports into the `map[int]bool` accumulator of
GetListeningPorts, modelled as an order-preserving deduplicating list. -/
def addScrapedPorts (acc : List Int) (ps : List Int) : List Int :=
  ps.foldl (fun a p => if a.contains p then a else a ++ [p]) acc

/-- GetListeningPorts from the source. The two external invocations (lsof
and docker, each followed by its fixed-regex scrape of the command's
stdout) are passed in as their outcomes: an error, or the list of port
numbers scraped. A failing lsof invocation is only logged and contributes
no ports; a failing docker invocation fails the whole call. -/
def GetListeningPorts (lsofPorts dockerPorts : Except String (List Int)) :
    Except String (List Int) :=
  let ports : List Int :=
    match lsofPorts with
    | .error _ => []
    | .ok ps => addScrapedPorts [] ps
  match dockerPorts with
  | .error e => .error ("failed to check Docker ports: " ++ e)
  | .ok dps => .ok (addScrapedPorts ports dps)

/-- The DB block of InitializePorts: the chosen port is assigned but (being
the last role) not added to the unavailable set. -/
def initDb (ms : Manuscript) (unavail : Int → Bool) :
    Manuscript × Option String :=
  if ms.DbPort = 0 then
    match FindAvailablePort 15432 15532 unavail with
    | .error e => (ms, some ("failed to find available port for DB: " ++ e))
    | .ok port => ({ ms with DbPort := port }, none)
  else
    (ms, none)

/-- The GraphQL block of InitializePorts: the chosen port is marked
unavailable before the DB block runs. -/
def initGraphQL (ms : Manuscript) (unavail : Int → Bool) :
    Manuscript × Option String :=
  if ms.GraphQLPort = 0 then
    match FindAvailablePort 8082 8182 unavail with
    | .error e =>
        (ms, some ("failed to find available port for GraphQL: " ++ e))
    | .ok port =>
        initDb { ms with GraphQLPort := port }
          (fun q => if q = port then true else unavail q)
  else
    initDb ms unavail

/-- The Flink block of InitializePorts: the chosen port is marked
unavailable before the GraphQL block runs. -/
def initFlink (ms : Manuscript) (unavail : Int → Bool) :
    Manuscript × Option String :=
  if ms.Port = 0 then
    match FindAvailablePort 8081 8181 unavail with
    | .error e =>
        (ms, some ("failed to find available port for Flink: " ++ e))
    | .ok port =>
        initGraphQL { ms with Port := port }
          (fun q => if q = port then true else unavail q)
  else
    initGraphQL ms unavail

/-- InitializePorts from the source. The GetListeningPorts() call is passed
in as its outcome `listeningPorts`. Go mutates the manuscript through a
pointer; here the (possibly partially updated) manuscript is returned
together with `none` on success or `some err` on failure. -/
def InitializePorts (ms : Manuscript) (config : Option Config)
    (listeningPorts : Except String (List Int)) :
    Manuscript × Option String :=
  match ValidatePortAssignments ms config with
  | .error e => (ms, some e)
  | .ok _ =>
    match listeningPorts with
    | .error e => (ms, some ("failed to get listening ports: " ++ e))
    | .ok lports =>
      match FindReservedPorts config with
      | .error e => (ms, some ("failed to get reserved ports: " ++ e))
      | .ok reservedPorts =>
        let unavailablePorts : Int → Bool := fun p =>
          lports.contains p || (reservedPorts.map Prod.fst).contains p
        initFlink ms unavailablePorts

/-- Modelled from the spec: pkg.ExecuteStepWithLoading is not under src;
per the pipeline description it runs the step's function (with console
decoration) and returns that function's error. -/
def ExecuteStepWithLoading (outcome : Except String Unit) :
    Except String Unit :=
  outcome

/-- A pipeline step: its display name and the outcome of its closure. -/
structure Step where
  name : String
  fn : Except String Unit

/-- The step loop of DeployManuscript: run steps in order; on the first
error, stop and report the failing step's name and the cause (the source
does this with log.Fatalf, terminating the process). Returns the names of
the steps that were entered and the failure report, if any. -/
def runSteps : List Step → List String × Option (String × String)
  | [] => ([], none)
  | s :: rest =>
    match ExecuteStepWithLoading s.fn with
    | .error e => ([s.name], some (s.name, e))
    | .ok _ =>
      let r := runSteps rest
      (s.name :: r.1, r.2)

/-- The ten step names of DeployManuscript, in source order. -/
def deployStepNames : List String :=
  ["Step 1: Validating manuscript file",
   "Step 2: Parsing manuscript yaml",
   "Step 3: Verifying Port Initialization",
   "Step 4: Checking manuscript is already deployed",
   "Step 5: Create Directory",
   "Step 6: Create ManuscriptFile",
   "Step 7: Create DockerComposeFile",
   "Step 8: Check Docker Installed",
   "Step 9: Start Docker Containers",
   "Step 10: Check Container Status"]

/-- DeployManuscript's step execution, with each step closure's outcome
passed in (the closures shell out and touch the filesystem). -/
def DeployManuscript (outcomes : List (Except String Unit)) :
    List String × Option (String × String) :=
  runSteps (List.zipWith Step.mk deployStepNames outcomes)

/-! ### Derived descriptions of the reservation scan -/

/-- The reservation entries a single job contributes, in the scan's fixed
field order Flink, GraphQL, DB (zero fields contribute nothing). -/
def declsOf (ms : Manuscript) : ResMap :=
  (if ms.Port ≠ 0 then [(ms.Port, ⟨ms.Port, ms.Name, "Flink"⟩)] else []) ++
  (if ms.GraphQLPort ≠ 0 then
    [(ms.GraphQLPort, ⟨ms.GraphQLPort, ms.Name, "GraphQL"⟩)] else []) ++
  (if ms.DbPort ≠ 0 then [(ms.DbPort, ⟨ms.DbPort, ms.Name, "DB"⟩)] else [])

/-- All reservation entries of a job list, in scan order. -/
def allDecls (l : List Manuscript) : ResMap := l.flatMap declsOf

/-- The keys of a reservation map. -/
def keys (m : ResMap) : List Int := m.map Prod.fst

/-- All non-zero port values declared across a job list, in scan order. -/
def allKeys (l : List Manuscript) : List Int := keys (allDecls l)

/-- Holds when `r` is the reservation record that job list `l` declares
for port `p`: some job of `l` has `p` (non-zero) as one of its port
fields, and `r` carries that job's name and that field's role. -/
def Declares (l : List Manuscript) (p : Int) (r : PortReservation) : Prop :=
  ∃ ms ∈ l,
    (ms.Port ≠ 0 ∧ p = ms.Port ∧ r = ⟨ms.Port, ms.Name, "Flink"⟩) ∨
    (ms.GraphQLPort ≠ 0 ∧ p = ms.GraphQLPort ∧
      r = ⟨ms.GraphQLPort, ms.Name, "GraphQL"⟩) ∨
    (ms.DbPort ≠ 0 ∧ p = ms.DbPort ∧ r = ⟨ms.DbPort, ms.Name, "DB"⟩)

/-! ### Lemmas about the association-list map -/

theorem lookupRes_eq_none_iff (m : ResMap) (p : Int) :
    lookupRes m p = none ↔ p ∉ keys m := by
  induction m with
  | nil => simp [lookupRes, keys]
  | cons hd tl ih =>
    obtain ⟨q, r⟩ := hd
    by_cases h : p = q
    · subst h
      simp [lookupRes, keys]
    · simp [lookupRes, keys, h, ih]

theorem lookupRes_mem {m : ResMap} {p : Int} {r : PortReservation}
    (h : lookupRes m p = some r) : (p, r) ∈ m := by
  induction m with
  | nil => simp [lookupRes] at h
  | cons hd tl ih =>
    obtain ⟨q, r'⟩ := hd
    by_cases hpq : p = q
    · subst hpq
      simp [lookupRes] at h
      simp [h]
    · simp [lookupRes, hpq] at h
      simp [ih h]

theorem lookupRes_of_mem {m : ResMap} {p : Int} {r : PortReservation}
    (hnd : (keys m).Nodup) (h : (p, r) ∈ m) : lookupRes m p = some r := by
  induction m with
  | nil => simp at h
  | cons hd tl ih =>
    obtain ⟨q, r'⟩ := hd
    simp only [keys, List.map_cons, List.nodup_cons] at hnd
    rcases List.mem_cons.mp h with h1 | h1
    · rw [Prod.mk.injEq] at h1
      simp [lookupRes, h1.1, h1.2]
    · have hpq : p ≠ q := by
        intro heq
        subst heq
        exact hnd.1 (List.mem_map.mpr ⟨(p, r), h1, rfl⟩)
      simpa [lookupRes, hpq] using ih hnd.2 h1

theorem keys_append (m₁ m₂ : ResMap) :
    keys (m₁ ++ m₂) = keys m₁ ++ keys m₂ := by
  simp [keys]

/-! ### Lemmas about the reservation scan -/

theorem checkPort_zero (m : ResMap) (n t : String) :
    checkPort m 0 n t = .ok m := by
  simp [checkPort]

theorem checkPort_fresh {m : ResMap} {p : Int} (n t : String)
    (hp : p ≠ 0) (hfresh : p ∉ keys m) :
    checkPort m p n t = .ok (m ++ [(p, ⟨p, n, t⟩)]) := by
  simp [checkPort, hp, (lookupRes_eq_none_iff m p).mpr hfresh]

theorem checkPort_ok_inv {m m' : ResMap} {p : Int} {n t : String}
    (h : checkPort m p n t = .ok m') :
    m' = m ++ (if p ≠ 0 then [(p, ⟨p, n, t⟩)] else []) ∧
    ∀ q ∈ keys (if p ≠ 0 then [(p, (⟨p, n, t⟩ : PortReservation))] else []),
      q ∉ keys m := by
  by_cases hp : p = 0
  · subst hp
    rw [checkPort_zero] at h
    cases h
    simp [keys]
  · cases hlk : lookupRes m p with
    | some r => simp [checkPort, hp, hlk] at h
    | none =>
      have hfresh := (lookupRes_eq_none_iff m p).mp hlk
      simp only [checkPort, hp, hlk, ne_eq, not_false_eq_true, if_true] at h ⊢
      cases h
      simpa [keys] using hfresh

theorem nodup_append_of_fresh {l₁ l₂ : List Int} (h1 : l₁.Nodup)
    (h2 : l₂.Nodup) (h : ∀ q ∈ l₂, q ∉ l₁) : (l₁ ++ l₂).Nodup :=
  List.nodup_append.mpr ⟨h1, h2, fun a ha hb => h a hb ha⟩

theorem keys_ite_nodup (c : Prop) [Decidable c] (x : Int × PortReservation) :
    (keys (if c then [x] else [])).Nodup := by
  split <;> simp [keys]

theorem processManuscript_fresh (m : ResMap) (ms : Manuscript)
    (h : (keys m ++ keys (declsOf ms)).Nodup) :
    processManuscript m ms = .ok (m ++ declsOf ms) := by
  classical
  set dF : ResMap :=
    if ms.Port ≠ 0 then [(ms.Port, ⟨ms.Port, ms.Name, "Flink"⟩)] else []
    with hdF
  set dG : ResMap :=
    if ms.GraphQLPort ≠ 0 then
      [(ms.GraphQLPort, ⟨ms.GraphQLPort, ms.Name, "GraphQL"⟩)] else []
    with hdG
  set dD : ResMap :=
    if ms.DbPort ≠ 0 then [(ms.DbPort, ⟨ms.DbPort, ms.Name, "DB"⟩)] else []
    with hdD
  have hdecl : declsOf ms = dF ++ dG ++ dD := rfl
  have h' : (((keys m ++ keys dF) ++ keys dG) ++ keys dD).Nodup := by
    simpa [hdecl, keys_append, List.append_assoc] using h
  have hD : List.Disjoint ((keys m ++ keys dF) ++ keys dG) (keys dD) :=
    List.disjoint_of_nodup_append h'
  have h'' : ((keys m ++ keys dF) ++ keys dG).Nodup :=
    (List.nodup_append.mp h').1
  have hG : List.Disjoint (keys m ++ keys dF) (keys dG) :=
    List.disjoint_of_nodup_append h''
  have h''' : (keys m ++ keys dF).Nodup := (List.nodup_append.mp h'').1
  have hF : List.Disjoint (keys m) (keys dF) :=
    List.disjoint_of_nodup_append h'''
  have s1 : checkPort m ms.Port ms.Name "Flink" = .ok (m ++ dF) := by
    by_cases hp : ms.Port = 0
    · simp [hdF, hp, checkPort_zero]
    · have hfresh : ms.Port ∉ keys m := by
        intro hmem
        exact hF hmem (by simp [hdF, hp, keys])
      simpa [hdF, hp] using checkPort_fresh ms.Name "Flink" hp hfresh
  have s2 : checkPort (m ++ dF) ms.GraphQLPort ms.Name "GraphQL" =
      .ok ((m ++ dF) ++ dG) := by
    by_cases hp : ms.GraphQLPort = 0
    · simp [hdG, hp, checkPort_zero]
    · have hfresh : ms.GraphQLPort ∉ keys (m ++ dF) := by
        intro hmem
        rw [keys_append] at hmem
        exact hG hmem (by simp [hdG, hp, keys])
      simpa [hdG, hp] using checkPort_fresh ms.Name "GraphQL" hp hfresh
  have s3 : checkPort ((m ++ dF) ++ dG) ms.DbPort ms.Name "DB" =
      .ok (((m ++ dF) ++ dG) ++ dD) := by
    by_cases hp : ms.DbPort = 0
    · simp [hdD, hp, checkPort_zero]
    · have hfresh : ms.DbPort ∉ keys ((m ++ dF) ++ dG) := by
        intro hmem
        rw [keys_append, keys_append] at hmem
        exact hD (by simpa [keys_append] using hmem) (by simp [hdD, hp, keys])
      simpa [hdD, hp] using checkPort_fresh ms.Name "DB" hp hfresh
  have s3' : checkPort (m ++ (dF ++ dG)) ms.DbPort ms.Name "DB" =
      .ok (m ++ (dF ++ (dG ++ dD))) := by
    simpa [List.append_assoc] using s3
  simp [processManuscript, s1, s2, s3', hdecl, List.append_assoc]

theorem processManuscript_ok_inv {m m' : ResMap} {ms : Manuscript}
    (h : processManuscript m ms = .ok m') :
    m' = m ++ declsOf ms ∧
    ((keys m).Nodup → (keys m ++ keys (declsOf ms)).Nodup) := by
  classical
  unfold processManuscript at h
  split at h
  · cases h
  next r1 h1 =>
    split at h
    · cases h
    next r2 h2 =>
      obtain ⟨rfl, hpf⟩ := checkPort_ok_inv h1
      obtain ⟨rfl, hgf⟩ := checkPort_ok_inv h2
      obtain ⟨rfl, hdf⟩ := checkPort_ok_inv h
      simp only [keys_append] at hgf hdf
      refine ⟨by simp [declsOf, List.append_assoc], fun hnd => ?_⟩
      have nF := nodup_append_of_fresh hnd (keys_ite_nodup _ _) hpf
      have nG := nodup_append_of_fresh nF (keys_ite_nodup _ _) hgf
      have nD := nodup_append_of_fresh nG (keys_ite_nodup _ _) hdf
      simpa [declsOf, keys_append, List.append_assoc] using nD

theorem scanManuscripts_ok (l : List Manuscript) : ∀ m : ResMap,
    (keys m ++ allKeys l).Nodup → scanManuscripts m l = .ok (m ++ allDecls l) := by
  induction l with
  | nil =>
    intro m _
    simp [scanManuscripts, allDecls]
  | cons ms rest ih =>
    intro m h
    have hsplit : allDecls (ms :: rest) = declsOf ms ++ allDecls rest := by
      simp [allDecls]
    have hsub : List.Sublist (keys m ++ keys (declsOf ms))
        (keys m ++ (keys (declsOf ms) ++ allKeys rest)) := by
      have := List.sublist_append_left
        (keys m ++ keys (declsOf ms)) (allKeys rest)
      rwa [List.append_assoc] at this
    have h1 : (keys m ++ keys (declsOf ms)).Nodup :=
      List.Nodup.sublist hsub (by simpa [allKeys, hsplit, keys_append] using h)
    have hstep := processManuscript_fresh m ms h1
    have h2 : (keys (m ++ declsOf ms) ++ allKeys rest).Nodup := by
      simpa [keys_append, allKeys, hsplit, List.append_assoc] using h
    simp only [scanManuscripts, hstep]
    simpa [hsplit, List.append_assoc] using ih (m ++ declsOf ms) h2

theorem scanManuscripts_ok_inv (l : List Manuscript) : ∀ m m' : ResMap,
    scanManuscripts m l = .ok m' → (keys m).Nodup →
    (keys m ++ allKeys l).Nodup := by
  induction l with
  | nil =>
    intro m m' _ hnd
    simpa [allKeys, allDecls, keys] using hnd
  | cons ms rest ih =>
    intro m m' h hnd
    unfold scanManuscripts at h
    split at h
    · cases h
    next r h1 =>
      obtain ⟨rfl, hnd'⟩ := processManuscript_ok_inv h1
      have hrec := ih (m ++ declsOf ms) m' h (by
        simpa [keys_append] using hnd' hnd)
      have hsplit : allKeys (ms :: rest) =
          keys (declsOf ms) ++ allKeys rest := by
        simp [allKeys, allDecls, keys_append]
      rw [hsplit]
      simpa [keys_append, List.append_assoc] using hrec

/-! ### Lemmas about the allocator loop -/

theorem findLoop_some_spec (u : Int → Bool) : ∀ (n : Nat) (s p : Int),
    findLoop u n s = some p →
    s ≤ p ∧ p < s + n ∧ u p = false ∧ ∀ q, s ≤ q → q < p → u q = true := by
  intro n
  induction n with
  | zero => intro s p h; simp [findLoop] at h
  | succ k ih =>
    intro s p h
    unfold findLoop at h
    by_cases hu : u s = true
    · rw [if_pos hu] at h
      obtain ⟨h1, h2, h3, h4⟩ := ih (s + 1) p h
      refine ⟨by omega, by omega, h3, ?_⟩
      intro q hq1 hq2
      rcases eq_or_lt_of_le hq1 with rfl | hlt
      · exact hu
      · exact h4 q (by omega) hq2
    · rw [if_neg hu] at h
      cases h
      refine ⟨le_refl _, by omega, by simpa using hu, ?_⟩
      intro q hq1 hq2
      omega

theorem findLoop_none_of_all (u : Int → Bool) : ∀ (n : Nat) (s : Int),
    (∀ q, s ≤ q → q < s + n → u q = true) → findLoop u n s = none := by
  intro n
  induction n with
  | zero => intro s _; simp [findLoop]
  | succ k ih =>
    intro s h
    have hs : u s = true := h s (le_refl _) (by omega)
    unfold findLoop
    rw [if_pos hs]
    exact ih (s + 1) (fun q hq1 hq2 => h q (by omega) (by omega))

theorem findLoop_none_spec (u : Int → Bool) : ∀ (n : Nat) (s : Int),
    findLoop u n s = none → ∀ q, s ≤ q → q < s + n → u q = true := by
  intro n
  induction n with
  | zero => intro s _ q hq1 hq2; omega
  | succ k ih =>
    intro s h q hq1 hq2
    unfold findLoop at h
    by_cases hu : u s = true
    · rw [if_pos hu] at h
      rcases eq_or_lt_of_le hq1 with rfl | hlt
      · exact hu
      · exact ih (s + 1) h q (by omega) (by omega)
    · rw [if_neg hu] at h
      cases h

theorem findAvailablePort_ok_not_unavail {s e : Int} {u : Int → Bool}
    {p : Int} (h : FindAvailablePort s e u = .ok p) : u p = false := by
  unfold FindAvailablePort at h
  cases hq : findLoop u ((e + 1 - s).toNat) s with
  | some q =>
    rw [hq] at h
    cases h
    exact (findLoop_some_spec u _ s _ hq).2.2.1
  | none =>
    rw [hq] at h
    cases h

/-! ### Lemmas about the port inventory accumulator -/

theorem mem_addScrapedPorts (ps : List Int) : ∀ (acc : List Int) (p : Int),
    p ∈ addScrapedPorts acc ps ↔ p ∈ acc ∨ p ∈ ps := by
  induction ps with
  | nil => intro acc p; simp [addScrapedPorts]
  | cons x xs ih =>
    intro acc p
    have hstep : addScrapedPorts acc (x :: xs) =
        addScrapedPorts (if acc.contains x then acc else acc ++ [x]) xs := by
      simp [addScrapedPorts]
    rw [hstep, ih]
    by_cases hx : acc.contains x
    · have hmem : x ∈ acc := List.elem_iff.mp hx
      simp only [if_pos hx, List.mem_cons]
      constructor
      · rintro (h | h)
        · exact Or.inl h
        · exact Or.inr (Or.inr h)
      · rintro (h | rfl | h)
        · exact Or.inl h
        · exact Or.inl hmem
        · exact Or.inr h
    · simp only [if_neg hx, List.mem_append, List.mem_singleton,
        List.mem_cons]
      tauto

/-! ### Membership description of the declared reservations -/

theorem mem_declsOf {ms : Manuscript} {p : Int} {r : PortReservation} :
    (p, r) ∈ declsOf ms ↔
      (ms.Port ≠ 0 ∧ p = ms.Port ∧ r = ⟨ms.Port, ms.Name, "Flink"⟩) ∨
      (ms.GraphQLPort ≠ 0 ∧ p = ms.GraphQLPort ∧
        r = ⟨ms.GraphQLPort, ms.Name, "GraphQL"⟩) ∨
      (ms.DbPort ≠ 0 ∧ p = ms.DbPort ∧ r = ⟨ms.DbPort, ms.Name, "DB"⟩) := by
  classical
  simp only [declsOf, List.mem_append]
  constructor
  · rintro ((h | h) | h) <;>
    · rw [List.mem_ite_nil_right] at h
      rcases h with ⟨hc, hm⟩
      simp only [List.mem_singleton, Prod.mk.injEq] at hm
      tauto
  · rintro (⟨hc, rfl, rfl⟩ | ⟨hc, rfl, rfl⟩ | ⟨hc, rfl, rfl⟩) <;>
      simp [hc]

theorem mem_allDecls {l : List Manuscript} {p : Int} {r : PortReservation} :
    (p, r) ∈ allDecls l ↔ Declares l p r := by
  simp only [allDecls, List.mem_flatMap, Declares]
  constructor
  · rintro ⟨ms, hms, hmem⟩
    exact ⟨ms, hms, mem_declsOf.mp hmem⟩
  · rintro ⟨ms, hms, hdecl⟩
    exact ⟨ms, hms, mem_declsOf.mpr hdecl⟩

/-! ### Lemmas about the step runner -/

theorem runSteps_first_failure (front : List (Except String Unit)) :
    ∀ (names : List String) (e : String)
      (rest : List (Except String Unit)),
    (∀ x ∈ front, x = .ok ()) → ∀ hlen : front.length < names.length,
    runSteps (List.zipWith Step.mk names (front ++ .error e :: rest)) =
      (names.take (front.length + 1),
       some (names.get ⟨front.length, hlen⟩, e)) := by
  induction front with
  | nil =>
    intro names e rest _ hlen
    cases names with
    | nil => simp at hlen
    | cons n ns =>
      simp [runSteps, ExecuteStepWithLoading]
  | cons x fr ih =>
    intro names e rest hfront hlen
    cases names with
    | nil => simp at hlen
    | cons n ns =>
      have hx : x = .ok () := hfront x (by simp)
      subst hx
      have hlen' : fr.length < ns.length := by
        simpa using hlen
      have hrec := ih ns e rest (fun y hy => hfront y (by simp [hy])) hlen'
      simp [runSteps, ExecuteStepWithLoading, hrec, List.take_succ_cons]

theorem runSteps_all_ok (outcomes : List (Except String Unit)) :
    ∀ names : List String, (∀ x ∈ outcomes, x = .ok ()) →
    runSteps (List.zipWith Step.mk names outcomes) =
      (names.take outcomes.length, none) := by
  induction outcomes with
  | nil => intro names _; simp [runSteps]
  | cons x xs ih =>
    intro names hok
    cases names with
    | nil => simp [runSteps]
    | cons n ns =>
      have hx : x = .ok () := hok x (by simp)
      subst hx
      have hrec := ih ns (fun y hy => hok y (by simp [hy]))
      simp [runSteps, ExecuteStepWithLoading, hrec, List.take_succ_cons]

/-! ### Claim theorems -/

/-- C1: for every inclusive range and every forbidden-port set,
FindAvailablePort returns the lowest free port when one exists; with the
forbidden set exactly the interval from a (inclusive) to a+k (exclusive)
it returns a+k when a+k ≤ b and the exhaustion error naming the range when
a+k > b; when every port of the range is forbidden it returns the
exhaustion error naming the range. -/
theorem findAvailablePort_correct :
    (∀ (s e : Int) (u : Int → Bool),
      (∃ p, s ≤ p ∧ p ≤ e ∧ u p = false) →
      ∃ p, FindAvailablePort s e u = .ok p ∧ s ≤ p ∧ p ≤ e ∧
        u p = false ∧ ∀ q, s ≤ q → q < p → u q = true) ∧
    (∀ (a b : Int) (k : Nat), a + k ≤ b →
      FindAvailablePort a b (fun q => decide (a ≤ q ∧ q < a + k)) =
        .ok (a + k)) ∧
    (∀ (a b : Int) (k : Nat), b < a + k →
      FindAvailablePort a b (fun q => decide (a ≤ q ∧ q < a + k)) =
        .error ("no available ports in the range " ++ toString a ++ "-" ++
          toString b)) ∧
    (∀ (s e : Int) (u : Int → Bool),
      (∀ p, s ≤ p → p ≤ e → u p = true) →
      FindAvailablePort s e u =
        .error ("no available ports in the range " ++ toString s ++ "-" ++
          toString e)) := by
  have part1 : ∀ (s e : Int) (u : Int → Bool),
      (∃ p, s ≤ p ∧ p ≤ e ∧ u p = false) →
      ∃ p, FindAvailablePort s e u = .ok p ∧ s ≤ p ∧ p ≤ e ∧
        u p = false ∧ ∀ q, s ≤ q → q < p → u q = true := by
    intro s e u hex
    obtain ⟨p₀, hp1, hp2, hp3⟩ := hex
    cases hfl : findLoop u ((e + 1 - s).toNat) s with
    | none =>
      exfalso
      have hall := findLoop_none_spec u ((e + 1 - s).toNat) s hfl p₀ hp1
        (by omega)
      rw [hall] at hp3
      cases hp3
    | some p =>
      obtain ⟨h1, h2, h3, h4⟩ :=
        findLoop_some_spec u ((e + 1 - s).toNat) s p hfl
      refine ⟨p, ?_, h1, by omega, h3, h4⟩
      simp [FindAvailablePort, hfl]
  have part4 : ∀ (s e : Int) (u : Int → Bool),
      (∀ p, s ≤ p → p ≤ e → u p = true) →
      FindAvailablePort s e u =
        .error ("no available ports in the range " ++ toString s ++ "-" ++
          toString e) := by
    intro s e u hall
    have hnone : findLoop u ((e + 1 - s).toNat) s = none := by
      apply findLoop_none_of_all
      intro q hq1 hq2
      exact hall q hq1 (by omega)
    simp [FindAvailablePort, hnone]
  refine ⟨part1, ?_, ?_, part4⟩
  · intro a b k hk
    obtain ⟨p, hok, h1, h2, h3, h4⟩ :=
      part1 a b (fun q => decide (a ≤ q ∧ q < a + k))
        ⟨a + k, by omega, hk, by simp⟩
    have h3' : ¬(a ≤ p ∧ p < a + (k : Int)) := by simpa using h3
    have hpge : a + (k : Int) ≤ p := by
      rcases not_and_or.mp h3' with hna | hnb
      · omega
      · omega
    have heq : p = a + (k : Int) := by
      rcases eq_or_lt_of_le hpge with heq | hlt
      · exact heq.symm
      · exfalso
        have := h4 (a + k) (by omega) hlt
        simp at this
    rw [heq] at hok
    exact hok
  · intro a b k hk
    apply part4
    intro p hp1 hp2
    simp only [decide_eq_true_eq]
    exact ⟨hp1, by omega⟩

/-- C1 witness: the allocator applied at concrete ranges and forbidden
sets, through each part of the claim theorem. -/
theorem findAvailablePort_correct_witness :
    (∃ p, FindAvailablePort 1 3 (fun _ => false) = .ok p ∧ (1 : Int) ≤ p ∧
      p ≤ 3 ∧ (fun _ => false) p = false ∧
      ∀ q, (1 : Int) ≤ q → q < p → (fun _ => false) q = true) ∧
    FindAvailablePort 10 12
      (fun q => decide ((10 : Int) ≤ q ∧ q < 10 + (2 : Nat))) =
      .ok (10 + ((2 : Nat) : Int)) ∧
    FindAvailablePort 10 12
      (fun q => decide ((10 : Int) ≤ q ∧ q < 10 + (5 : Nat))) =
      .error ("no available ports in the range " ++ toString (10 : Int) ++
        "-" ++ toString (12 : Int)) ∧
    FindAvailablePort 7 6 (fun _ => true) =
      .error ("no available ports in the range " ++ toString (7 : Int) ++
        "-" ++ toString (6 : Int)) :=
  ⟨findAvailablePort_correct.1 1 3 (fun _ => false) ⟨1, le_refl 1, by norm_num, rfl⟩,
   findAvailablePort_correct.2.1 10 12 2 (by norm_num),
   findAvailablePort_correct.2.2.1 10 12 5 (by norm_num),
   findAvailablePort_correct.2.2.2 7 6 (fun _ => true)
     (fun p h1 h2 => rfl)⟩

/-- C2: when all non-zero port values across all jobs and roles are
pairwise distinct, FindReservedPorts succeeds and the returned map binds
exactly the declared non-zero ports, each to its owning job's name and
the correct role. -/
theorem findReservedPorts_complete (config : Config)
    (h : (allKeys config.Manuscripts).Nodup) :
    ∃ m, FindReservedPorts (some config) = .ok m ∧
      ∀ p r, lookupRes m p = some r ↔ Declares config.Manuscripts p r := by
  refine ⟨allDecls config.Manuscripts, ?_, ?_⟩
  · have hscan := scanManuscripts_ok config.Manuscripts []
      (by simpa [keys] using h)
    simpa [FindReservedPorts] using hscan
  · intro p r
    constructor
    · intro hlk
      exact mem_allDecls.mp (lookupRes_mem hlk)
    · intro hdecl
      exact lookupRes_of_mem (by simpa [allKeys] using h)
        (mem_allDecls.mpr hdecl)

/-- C2 witness: a two-job list with five distinct non-zero ports. -/
theorem findReservedPorts_complete_witness :
    ∃ m, FindReservedPorts
        (some ⟨[⟨"a", 1, 2, 3⟩, ⟨"b", 4, 0, 5⟩]⟩) = .ok m ∧
      ∀ p r, lookupRes m p = some r ↔
        Declares [⟨"a", 1, 2, 3⟩, ⟨"b", 4, 0, 5⟩] p r :=
  findReservedPorts_complete ⟨[⟨"a", 1, 2, 3⟩, ⟨"b", 4, 0, 5⟩]⟩ (by decide)

/-- C3 counterexample: a single job re-claiming its own port (5 as both
Flink and GraphQL port) aborts the scan, contradicting the claim that a
port already reserved under the same job's name is not a conflict. -/
theorem findReservedPorts_self_conflict_counterexample :
    FindReservedPorts (some ⟨[⟨"a", 5, 5, 0⟩]⟩) =
      .error ("port conflict detected: " ++ toString (5 : Int) ++
        " is reserved by both " ++ "a" ++ " and " ++ "a" ++ " for " ++
        "Flink") := rfl

/-- C3 amended: FindReservedPorts aborts exactly when a non-zero port is
encountered that is already in the map — regardless of the claiming job's
name, the same job included; the error names the first claimant, the
current job, the port, and the role held by the first claimant. -/
theorem findReservedPorts_conflict_characterization :
    (∀ config : Config,
      (∃ e, FindReservedPorts (some config) = .error e) ↔
        ¬ (allKeys config.Manuscripts).Nodup) ∧
    (∀ (n1 n2 : String) (p : Int), p ≠ 0 →
      FindReservedPorts (some ⟨[⟨n1, p, 0, 0⟩, ⟨n2, 0, p, 0⟩]⟩) =
        .error ("port conflict detected: " ++ toString p ++
          " is reserved by both " ++ n1 ++ " and " ++ n2 ++ " for " ++
          "Flink")) := by
  constructor
  · intro config
    constructor
    · rintro ⟨e, he⟩ hnd
      have hok := scanManuscripts_ok config.Manuscripts []
        (by simpa [keys] using hnd)
      rw [FindReservedPorts, hok] at he
      cases he
    · intro hnd
      cases hok : FindReservedPorts (some config) with
      | error e => exact ⟨e, rfl⟩
      | ok m =>
        exfalso
        apply hnd
        have := scanManuscripts_ok_inv config.Manuscripts [] m hok
          (by simp [keys])
        simpa [keys] using this
  · intro n1 n2 p hp
    simp [FindReservedPorts, scanManuscripts, processManuscript, checkPort,
      lookupRes, hp]

/-- C3 amended witness: two differently named jobs sharing port 5, the
first holding it as its Flink port. -/
theorem findReservedPorts_conflict_characterization_witness :
    FindReservedPorts (some ⟨[⟨"a", 5, 0, 0⟩, ⟨"b", 0, 5, 0⟩]⟩) =
      .error ("port conflict detected: " ++ toString (5 : Int) ++
        " is reserved by both " ++ "a" ++ " and " ++ "b" ++ " for " ++
        "Flink") :=
  findReservedPorts_conflict_characterization.2 "a" "b" 5 (by norm_num)

/-- C10: a nil configuration yields the empty reservation map, the same
result as an empty job list, with no error. -/
theorem findReservedPorts_nil_config :
    FindReservedPorts none = .ok [] ∧
    FindReservedPorts (some ⟨[]⟩) = .ok [] :=
  ⟨rfl, rfl⟩

theorem checkAssignment_error_iff (m : ResMap) (p : Int) (name : String) :
    (∃ e, checkAssignment m p name = .error e) ↔
    (p ≠ 0 ∧ ∃ r, lookupRes m p = some r ∧ r.ManuscriptName ≠ name) := by
  by_cases hp : p = 0
  · subst hp
    simp [checkAssignment]
  · cases hlk : lookupRes m p with
    | none => simp [checkAssignment, hp, hlk]
    | some r =>
      by_cases hn : r.ManuscriptName = name
      · simp [checkAssignment, hp, hlk, hn]
      · simp [checkAssignment, hp, hlk, hn]

/-- C5: given a job list whose reservation index builds, validation fails
exactly when some non-zero port field of the candidate is reserved under a
different manuscript name; in the concrete scenario where the candidate's
Flink port equals another job's GraphQL (query-endpoint) reservation, the
error names that job and its role. -/
theorem validatePortAssignments_conflict_iff :
    (∀ (ms : Manuscript) (config : Option Config) (m : ResMap),
      FindReservedPorts config = .ok m →
      ((∃ e, ValidatePortAssignments ms config = .error e) ↔
        ∃ p, (p = ms.Port ∨ p = ms.GraphQLPort ∨ p = ms.DbPort) ∧ p ≠ 0 ∧
          ∃ r, lookupRes m p = some r ∧ r.ManuscriptName ≠ ms.Name)) ∧
    (∀ nameA nameB : String, nameB ≠ nameA →
      ValidatePortAssignments ⟨nameA, 8081, 0, 0⟩
        (some ⟨[⟨nameB, 0, 8081, 0⟩]⟩) =
        .error ("port " ++ toString (8081 : Int) ++
          " is already reserved by manuscript " ++ nameB ++ " for " ++
          "GraphQL")) := by
  constructor
  · intro ms config m hok
    cases hc1 : checkAssignment m ms.Port ms.Name with
    | error e1 =>
      have hr1 := (checkAssignment_error_iff m ms.Port ms.Name).mp ⟨e1, hc1⟩
      refine iff_of_true ⟨e1, ?_⟩ ⟨ms.Port, Or.inl rfl, hr1.1, hr1.2⟩
      simp [ValidatePortAssignments, hok, hc1]
    | ok u1 =>
      cases hc2 : checkAssignment m ms.GraphQLPort ms.Name with
      | error e2 =>
        have hr2 :=
          (checkAssignment_error_iff m ms.GraphQLPort ms.Name).mp ⟨e2, hc2⟩
        refine iff_of_true ⟨e2, ?_⟩
          ⟨ms.GraphQLPort, Or.inr (Or.inl rfl), hr2.1, hr2.2⟩
        simp [ValidatePortAssignments, hok, hc1, hc2]
      | ok u2 =>
        cases hc3 : checkAssignment m ms.DbPort ms.Name with
        | error e3 =>
          have hr3 :=
            (checkAssignment_error_iff m ms.DbPort ms.Name).mp ⟨e3, hc3⟩
          refine iff_of_true ⟨e3, ?_⟩
            ⟨ms.DbPort, Or.inr (Or.inr rfl), hr3.1, hr3.2⟩
          simp [ValidatePortAssignments, hok, hc1, hc2, hc3]
        | ok u3 =>
          refine iff_of_false ?_ ?_
          · rintro ⟨e, he⟩
            rw [ValidatePortAssignments] at he
            rw [hok] at he
            simp [hc1, hc2, hc3] at he
          · rintro ⟨p, hpor, hp0, r, hlk, hname⟩
            rcases hpor with rfl | rfl | rfl
            · obtain ⟨e, he⟩ :=
                (checkAssignment_error_iff m ms.Port ms.Name).mpr
                  ⟨hp0, r, hlk, hname⟩
              rw [hc1] at he
              cases he
            · obtain ⟨e, he⟩ :=
                (checkAssignment_error_iff m ms.GraphQLPort ms.Name).mpr
                  ⟨hp0, r, hlk, hname⟩
              rw [hc2] at he
              cases he
            · obtain ⟨e, he⟩ :=
                (checkAssignment_error_iff m ms.DbPort ms.Name).mpr
                  ⟨hp0, r, hlk, hname⟩
              rw [hc3] at he
              cases he
  · intro nameA nameB hne
    simp [ValidatePortAssignments, FindReservedPorts, scanManuscripts,
      processManuscript, checkPort, checkAssignment, lookupRes, hne]

/-- C5 witness: candidate A with Flink port 8081 against a job list where
B holds 8081 for GraphQL; also the general characterization instantiated
at that same scenario. -/
theorem validatePortAssignments_conflict_iff_witness :
    ValidatePortAssignments ⟨"A", 8081, 0, 0⟩
        (some ⟨[⟨"B", 0, 8081, 0⟩]⟩) =
      .error ("port " ++ toString (8081 : Int) ++
        " is already reserved by manuscript " ++ "B" ++ " for " ++
        "GraphQL") ∧
    ((∃ e, ValidatePortAssignments ⟨"A", 8081, 0, 0⟩
        (some ⟨[⟨"B", 0, 8081, 0⟩]⟩) = .error e) ↔
      ∃ p, (p = (8081 : Int) ∨ p = 0 ∨ p = 0) ∧ p ≠ 0 ∧
        ∃ r, lookupRes [((8081 : Int), ⟨8081, "B", "GraphQL"⟩)] p = some r ∧
          r.ManuscriptName ≠ "A") :=
  ⟨validatePortAssignments_conflict_iff.2 "A" "B" (by decide),
   validatePortAssignments_conflict_iff.1 ⟨"A", 8081, 0, 0⟩
     (some ⟨[⟨"B", 0, 8081, 0⟩]⟩) [((8081 : Int), ⟨8081, "B", "GraphQL"⟩)]
     rfl⟩

/-- C7: a failing host port-listing invocation is tolerated — the
inventory succeeds and contains exactly the container-published ports —
while a failing container-engine invocation fails the whole call. -/
theorem getListeningPorts_error_handling :
    (∀ (e : String) (dps : List Int),
      ∃ l, GetListeningPorts (.error e) (.ok dps) = .ok l ∧
        ∀ p, p ∈ l ↔ p ∈ dps) ∧
    (∀ (lsofPorts : Except String (List Int)) (e : String),
      GetListeningPorts lsofPorts (.error e) =
        .error ("failed to check Docker ports: " ++ e)) := by
  constructor
  · intro e dps
    refine ⟨addScrapedPorts [] dps, rfl, ?_⟩
    intro p
    rw [mem_addScrapedPorts]
    simp
  · intro lsofPorts e
    rfl

theorem initDb_ok {ms ms' : Manuscript} {u : Int → Bool}
    (h2 : ms.DbPort = 0) (h : initDb ms u = (ms', none)) :
    ∃ pD, ms' = { ms with DbPort := pD } ∧ u pD = false := by
  unfold initDb at h
  rw [if_pos h2] at h
  cases hd : FindAvailablePort 15432 15532 u with
  | error e => rw [hd] at h; simp at h
  | ok pD =>
    rw [hd] at h
    cases h
    exact ⟨pD, rfl, findAvailablePort_ok_not_unavail hd⟩

theorem initGraphQL_ok {ms ms' : Manuscript} {u : Int → Bool}
    (h1 : ms.GraphQLPort = 0) (h2 : ms.DbPort = 0)
    (h : initGraphQL ms u = (ms', none)) :
    ∃ pG pD, ms' = { ms with GraphQLPort := pG, DbPort := pD } ∧
      u pG = false ∧ pD ≠ pG ∧ u pD = false := by
  unfold initGraphQL at h
  rw [if_pos h1] at h
  cases hg : FindAvailablePort 8082 8182 u with
  | error e => rw [hg] at h; simp at h
  | ok pG =>
    rw [hg] at h
    obtain ⟨pD, hms', huD⟩ := initDb_ok (by simpa using h2) h
    have hne : pD ≠ pG := by
      intro heq
      simp [heq] at huD
    have huD' : u pD = false := by
      simpa [hne] using huD
    exact ⟨pG, pD, hms', findAvailablePort_ok_not_unavail hg, hne, huD'⟩

theorem initFlink_ok {ms ms' : Manuscript} {u : Int → Bool}
    (h0 : ms.Port = 0) (h1 : ms.GraphQLPort = 0) (h2 : ms.DbPort = 0)
    (h : initFlink ms u = (ms', none)) :
    ∃ pF pG pD,
      ms' = { ms with Port := pF, GraphQLPort := pG, DbPort := pD } ∧
      pG ≠ pF ∧ pD ≠ pF ∧ pD ≠ pG := by
  unfold initFlink at h
  rw [if_pos h0] at h
  cases hf : FindAvailablePort 8081 8181 u with
  | error e => rw [hf] at h; simp at h
  | ok pF =>
    rw [hf] at h
    obtain ⟨pG, pD, hms', huG, hDG, huD⟩ :=
      initGraphQL_ok (by simpa using h1) (by simpa using h2) h
    have hGF : pG ≠ pF := by
      intro heq
      simp [heq] at huG
    have hDF : pD ≠ pF := by
      intro heq
      simp [heq] at huD
    exact ⟨pF, pG, pD, hms', hGF, hDF, hDG⟩

/-- C4: for a manuscript with all three ports unset and any config and
listening-port outcome, a successful InitializePorts assigns three
pairwise distinct ports. -/
theorem initializePorts_distinct_ports (ms : Manuscript)
    (config : Option Config) (listeningPorts : Except String (List Int))
    (ms' : Manuscript) (h0 : ms.Port = 0) (h1 : ms.GraphQLPort = 0)
    (h2 : ms.DbPort = 0)
    (hok : InitializePorts ms config listeningPorts = (ms', none)) :
    ms'.Port ≠ ms'.GraphQLPort ∧ ms'.Port ≠ ms'.DbPort ∧
    ms'.GraphQLPort ≠ ms'.DbPort := by
  unfold InitializePorts at hok
  split at hok
  · simp at hok
  split at hok
  · simp at hok
  next lports _ =>
    split at hok
    · simp at hok
    next reservedPorts _ =>
      obtain ⟨pF, pG, pD, hms', hGF, hDF, hDG⟩ :=
        initFlink_ok h0 h1 h2 hok
      subst hms'
      refine ⟨?_, ?_, ?_⟩ <;> simp <;> omega

/-- C4 witness: starting from an all-zero manuscript with no config and no
listening ports, the three assigned ports are pairwise distinct. -/
theorem initializePorts_distinct_ports_witness :
    (8081 : Int) ≠ 8082 ∧ (8081 : Int) ≠ 15432 ∧ (8082 : Int) ≠ 15432 :=
  initializePorts_distinct_ports ⟨"x", 0, 0, 0⟩ none (.ok [])
    ⟨"x", 8081, 8082, 15432⟩ rfl rfl rfl rfl

/-- C6: with no ports set and the host, container and reserved port sets
all empty, InitializePorts assigns Flink port 8081, GraphQL port 8082 and
DB port 15432 from the fixed per-role ranges. -/
theorem initializePorts_default_assignment (name : String) :
    InitializePorts ⟨name, 0, 0, 0⟩ (some ⟨[]⟩)
      (GetListeningPorts (.ok []) (.ok [])) =
      (⟨name, 8081, 8082, 15432⟩, none) := rfl

theorem initDb_frame (ms : Manuscript) (u : Int → Bool) :
    (initDb ms u).1.Port = ms.Port ∧
    (initDb ms u).1.GraphQLPort = ms.GraphQLPort ∧
    (ms.DbPort ≠ 0 → (initDb ms u).1.DbPort = ms.DbPort) := by
  unfold initDb
  by_cases h2 : ms.DbPort = 0
  · rw [if_pos h2]
    cases hd : FindAvailablePort 15432 15532 u with
    | error e => simp [h2]
    | ok p => simp [h2]
  · rw [if_neg h2]
    simp

theorem initGraphQL_frame (ms : Manuscript) (u : Int → Bool) :
    (initGraphQL ms u).1.Port = ms.Port ∧
    (ms.GraphQLPort ≠ 0 →
      (initGraphQL ms u).1.GraphQLPort = ms.GraphQLPort) ∧
    (ms.DbPort ≠ 0 → (initGraphQL ms u).1.DbPort = ms.DbPort) := by
  unfold initGraphQL
  by_cases h1 : ms.GraphQLPort = 0
  · rw [if_pos h1]
    cases hg : FindAvailablePort 8082 8182 u with
    | error e => simp [h1]
    | ok p =>
      have hDb := initDb_frame { ms with GraphQLPort := p }
        (fun q => if q = p then true else u q)
      simp only []
      exact ⟨hDb.1, fun hne => absurd h1 hne, fun hne => hDb.2.2 hne⟩
  · rw [if_neg h1]
    have hDb := initDb_frame ms u
    exact ⟨hDb.1, fun _ => hDb.2.1, hDb.2.2⟩

theorem initFlink_frame (ms : Manuscript) (u : Int → Bool) :
    (ms.Port ≠ 0 → (initFlink ms u).1.Port = ms.Port) ∧
    (ms.GraphQLPort ≠ 0 →
      (initFlink ms u).1.GraphQLPort = ms.GraphQLPort) ∧
    (ms.DbPort ≠ 0 → (initFlink ms u).1.DbPort = ms.DbPort) := by
  unfold initFlink
  by_cases h0 : ms.Port = 0
  · rw [if_pos h0]
    cases hf : FindAvailablePort 8081 8181 u with
    | error e => simp [h0]
    | ok p =>
      have hG := initGraphQL_frame { ms with Port := p }
        (fun q => if q = p then true else u q)
      simp only []
      exact ⟨fun hne => absurd h0 hne, fun hne => hG.2.1 hne,
        fun hne => hG.2.2 hne⟩
  · rw [if_neg h0]
    have hG := initGraphQL_frame ms u
    exact ⟨fun _ => hG.1, hG.2.1, hG.2.2⟩

/-- C8: InitializePorts never changes a port field that is non-zero on
entry, whatever the outcome: only zero-valued fields are filled in. -/
theorem initializePorts_preserves_set_ports (ms : Manuscript)
    (config : Option Config) (listeningPorts : Except String (List Int)) :
    (ms.Port ≠ 0 →
      (InitializePorts ms config listeningPorts).1.Port = ms.Port) ∧
    (ms.GraphQLPort ≠ 0 →
      (InitializePorts ms config listeningPorts).1.GraphQLPort =
        ms.GraphQLPort) ∧
    (ms.DbPort ≠ 0 →
      (InitializePorts ms config listeningPorts).1.DbPort = ms.DbPort) := by
  unfold InitializePorts
  split
  · simp
  split
  · simp
  next lports _ =>
    split
    · simp
    next reservedPorts _ =>
      exact initFlink_frame ms _

/-- C8 witness: a manuscript with all three ports already set keeps them
through InitializePorts. -/
theorem initializePorts_preserves_set_ports_witness :
    (InitializePorts ⟨"w", 9000, 9001, 9002⟩ none (.ok [])).1.Port =
      9000 ∧
    (InitializePorts ⟨"w", 9000, 9001, 9002⟩ none
      (.ok [])).1.GraphQLPort = 9001 ∧
    (InitializePorts ⟨"w", 9000, 9001, 9002⟩ none (.ok [])).1.DbPort =
      9002 :=
  ⟨(initializePorts_preserves_set_ports ⟨"w", 9000, 9001, 9002⟩ none
      (.ok [])).1 (by decide),
   (initializePorts_preserves_set_ports ⟨"w", 9000, 9001, 9002⟩ none
      (.ok [])).2.1 (by decide),
   (initializePorts_preserves_set_ports ⟨"w", 9000, 9001, 9002⟩ none
      (.ok [])).2.2 (by decide)⟩

/-- C9: the deployment pipeline runs its ten named steps strictly in
order; the first failing step halts execution with a report naming that
step and the cause, later steps never run, and when every step succeeds
all ten run in order with no failure report. -/
theorem deployManuscript_sequencing :
    (∀ (front rest : List (Except String Unit)) (e : String),
      (∀ x ∈ front, x = .ok ()) →
      ∀ hlen : front.length < deployStepNames.length,
      DeployManuscript (front ++ .error e :: rest) =
        (deployStepNames.take (front.length + 1),
         some (deployStepNames.get ⟨front.length, hlen⟩, e))) ∧
    (∀ outcomes : List (Except String Unit),
      (∀ x ∈ outcomes, x = .ok ()) →
      DeployManuscript outcomes =
        (deployStepNames.take outcomes.length, none)) :=
  ⟨fun front rest e hfront hlen =>
    runSteps_first_failure front deployStepNames e rest hfront hlen,
   fun outcomes hok => runSteps_all_ok outcomes deployStepNames hok⟩

/-- C9 witness: two successful steps followed by a failure of the third
step halt the pipeline at "Step 3: Verifying Port Initialization". -/
theorem deployManuscript_sequencing_witness :
    DeployManuscript [.ok (), .ok (), .error "boom"] =
      (deployStepNames.take 3,
       some (deployStepNames.get ⟨2, by decide⟩, "boom")) :=
  deployManuscript_sequencing.1 [.ok (), .ok ()] [] "boom"
    (by intro x hx; simp at hx; exact hx) (by decide)

end ManuscriptCore
